import Mathlib

/-!
Shallow embedding of a request/response correlation layer built on a
one-directional push/pull message transport: a client
(`CommunicationClient.ts`) that assigns correlation ids, stores pending
calls and sweeps timeouts, and a server (`CommunicationServer.ts`) that
dispatches decoded requests to a handler and replies when asked to.

Times and timeouts are integers (JS `Date.now()` milliseconds), JSON-like
payloads are `Value`s, and the pending-call store and the outbound channel
cache are association lists mirroring insertion-ordered JS `Map`s.  Each
operation is modelled as a state transition that also returns the effects
it performs — the payloads it transmits and the futures it settles —
within one uninterrupted turn of the single-threaded event loop.
-/

/-- JSON-like payload values carried in requests and responses. -/
inductive Value where
  | vnull
  | vbool (b : Bool)
  | vnum (n : Int)
  | vstr (s : String)
  | vobj (fields : List (String × Value))
deriving Repr

mutual

/-- Decidable equality on payload values. -/
def Value.decEq : (a b : Value) → Decidable (a = b)
  | .vnull, .vnull => isTrue rfl
  | .vnull, .vbool _ => isFalse nofun
  | .vnull, .vnum _ => isFalse nofun
  | .vnull, .vstr _ => isFalse nofun
  | .vnull, .vobj _ => isFalse nofun
  | .vbool _, .vnull => isFalse nofun
  | .vbool a, .vbool b =>
      if h : a = b then isTrue (by rw [h]) else
        isFalse (fun hh => by cases hh; exact h rfl)
  | .vbool _, .vnum _ => isFalse nofun
  | .vbool _, .vstr _ => isFalse nofun
  | .vbool _, .vobj _ => isFalse nofun
  | .vnum _, .vnull => isFalse nofun
  | .vnum _, .vbool _ => isFalse nofun
  | .vnum a, .vnum b =>
      if h : a = b then isTrue (by rw [h]) else
        isFalse (fun hh => by cases hh; exact h rfl)
  | .vnum _, .vstr _ => isFalse nofun
  | .vnum _, .vobj _ => isFalse nofun
  | .vstr _, .vnull => isFalse nofun
  | .vstr _, .vbool _ => isFalse nofun
  | .vstr _, .vnum _ => isFalse nofun
  | .vstr a, .vstr b =>
      if h : a = b then isTrue (by rw [h]) else
        isFalse (fun hh => by cases hh; exact h rfl)
  | .vstr _, .vobj _ => isFalse nofun
  | .vobj _, .vnull => isFalse nofun
  | .vobj _, .vbool _ => isFalse nofun
  | .vobj _, .vnum _ => isFalse nofun
  | .vobj _, .vstr _ => isFalse nofun
  | .vobj fs, .vobj gs =>
      match Value.decEqFields fs gs with
      | isTrue h => isTrue (by rw [h])
      | isFalse h => isFalse (fun hh => by cases hh; exact h rfl)

/-- Decidable equality on object field lists. -/
def Value.decEqFields : (fs gs : List (String × Value)) → Decidable (fs = gs)
  | [], [] => isTrue rfl
  | [], _ :: _ => isFalse nofun
  | _ :: _, [] => isFalse nofun
  | (k, v) :: fs, (l, w) :: gs =>
      match Value.decEq v w, Value.decEqFields fs gs with
      | isTrue hv, isTrue hf =>
          if hk : k = l then isTrue (by rw [hk, hv, hf]) else
            isFalse (fun hh => by cases hh; exact hk rfl)
      | isFalse hv, _ => isFalse (fun hh => by cases hh; exact hv rfl)
      | _, isFalse hf => isFalse (fun hh => by cases hh; exact hf rfl)

end

instance : DecidableEq Value := Value.decEq

/-- Transport protocols supported by the layer (`TSupportedProtocols`). -/
inductive Protocol where
  | tcp
  | ipc
deriving Repr, DecidableEq

/-- Render a protocol the way the source interpolates it into URIs. -/
def Protocol.toStr : Protocol → String
  | .tcp => "tcp"
  | .ipc => "ipc"

/-- Request parameters (`TParams`): an open key/value structure of which the
client only inspects the optional `timeout` field. -/
structure Params where
  timeout : Option Int
  extra : List (String × Value)
deriving Repr, DecidableEq

/-- The wire-level request record (`TRequestMessage`). -/
structure TRequestMessage where
  id : Nat
  createdAt : Int
  action : String
  params : Params
  responseWanted : Bool
  expiresAt : Int
  sourceUri : String
deriving Repr, DecidableEq

/-- The wire-level response record (`TResponseMessage`) as the client's
listener sees it after a successful decode, together with the raw payload
length that the listener stores into the object as `size`. -/
structure TResponseMessage where
  id : Nat
  data : Value
  sourceUri : Option String
  size : Nat
deriving Repr, DecidableEq

/-- The value the listener hands to a pending call's resolve continuation:
the decoded response object itself (with its `size` field added), encoded
back as a JSON-like object value. -/
def responseValue (m : TResponseMessage) : Value :=
  .vobj ([("id", .vnum (Int.ofNat m.id)), ("data", m.data)]
    ++ (match m.sourceUri with
        | some s => [("sourceUri", .vstr s)]
        | none => [])
    ++ [("size", .vnum (Int.ofNat m.size))])

/-- One pending call record (`TCallbackInformation`); the resolve/reject
continuations are identified by the call's id in emitted settle events. -/
structure TCallbackInformation where
  createdAt : Int
  expiresAt : Int
  action : String
  sourceUri : String
deriving Repr, DecidableEq

/-- Errors the layer can settle a future with. -/
inductive ErrKind where
  | timeoutErr
  | closedErr
deriving Repr, DecidableEq

/-- A settlement of a pending call's future, tagged by the call's id. -/
inductive SettleEvent where
  | resolve (id : Nat) (v : Value)
  | reject (id : Nat) (e : ErrKind)
deriving Repr, DecidableEq

/-- Effects one client operation performs in one turn: payloads transmitted
on outbound channels (destination URI paired with the request) and futures
settled. -/
structure ClientEff where
  sent : List (String × TRequestMessage)
  settles : List SettleEvent
deriving Repr, DecidableEq

/-- JS `Map.get`. -/
def mapGet {α : Type} (m : List (Nat × α)) (k : Nat) : Option α :=
  List.lookup k m

/-- JS `Map.set`: replace in place when the key exists, append otherwise. -/
def mapSet {α : Type} (m : List (Nat × α)) (k : Nat) (v : α) : List (Nat × α) :=
  if (List.lookup k m).isSome then
    m.map (fun p => if p.1 = k then (k, v) else p)
  else
    m ++ [(k, v)]

/-- JS `Map.delete`: drop the entries stored under the key. -/
def mapDelete {α : Type} (m : List (Nat × α)) (k : Nat) : List (Nat × α) :=
  m.filter (fun p => p.1 != k)

/-- Wraparound ceiling for correlation ids (`MAX_ID`). -/
def MAX_ID : Nat := 10000000

/-- Default per-call timeout (`DEFAULT_TIMEOUT`). -/
def DEFAULT_TIMEOUT : Int := 250

/-- Default sweep interval (`CHECK_TIMEOUTS_INTERVAL`). -/
def CHECK_TIMEOUTS_INTERVAL : Int := 100

/-- Lowest acceptable port (`MIN_PORT`). -/
def MIN_PORT : Int := 1024

/-- Highest acceptable port (`MAX_PORT`). -/
def MAX_PORT : Int := 49151

/-- Client construction options (`TClientOptions`). -/
structure TClientOptions where
  bindPort : Int
  protocol : Option Protocol
  host : Option String
  checkTimeoutsInterval : Option Int
  defaultTimeout : Option Int
deriving Repr, DecidableEq

/-- The mutable state of one `CommunicationClient` instance.  Sockets are
kept as the URIs of the open outbound channels (`socketStorage` keys) plus
a flag for the lazily bound inbound pull socket; `systemHost` stands for
the answer `getSystemHost()` would give, consumed opaquely. -/
structure ClientState where
  bindPort : Int
  protocol : Protocol
  host : Option String
  checkTimeoutsInterval : Int
  defaultTimeout : Int
  systemHost : String
  nextId : Nat
  callbackStorage : List (Nat × TCallbackInformation)
  socketStorage : List String
  bindSocketBound : Bool
  sweeperArmed : Bool
deriving Repr, DecidableEq

/-- JS `x || d` on an optional number: `undefined` and `0` are falsy. -/
def orDefaultInt (x : Option Int) (d : Int) : Int :=
  match x with
  | none => d
  | some v => if v = 0 then d else v

/-- JS `host.indexOf(chars) !== -1` for the protocol separator check. -/
def containsSep (s : String) : Bool :=
  decide (List.IsInfix "://".data s.data)

/-- Client constructor: apply the `||` defaults, run `validateOptions`,
initialise the instance fields and arm the timeout sweeper.  Field
initialisers of the class (`nextId = 0`, empty maps) are part of
construction. -/
def constructClient (o : TClientOptions) (systemHost : String) :
    Except String ClientState :=
  let protocol := o.protocol.getD Protocol.tcp
  let defaultTimeout := orDefaultInt o.defaultTimeout DEFAULT_TIMEOUT
  let interval := orDefaultInt o.checkTimeoutsInterval CHECK_TIMEOUTS_INTERVAL
  if o.bindPort < MIN_PORT ∨ o.bindPort > MAX_PORT then
    .error "Port is out of range"
  else if (o.host.map containsSep).getD false then
    .error "Hostname cannot contain protocol"
  else if defaultTimeout < 2 then
    .error "Timeout cannot be set to value smaller then 2"
  else if interval < 1 then
    .error "Timeout check cannot be set to value smaller then 1"
  else
    .ok {
      bindPort := o.bindPort
      protocol := protocol
      host := o.host
      checkTimeoutsInterval := interval
      defaultTimeout := defaultTimeout
      systemHost := systemHost
      nextId := 0
      callbackStorage := []
      socketStorage := []
      bindSocketBound := false
      sweeperArmed := true
    }

/-- Build a `protocol://host:port` URI the way the source interpolates it. -/
def mkUri (p : Protocol) (h : String) (port : Int) : String :=
  p.toStr ++ "://" ++ h ++ ":" ++ toString port

namespace CommunicationClient

/-- Counter step (`getNextId`): return the current id, advance by one, and
wrap the counter to zero once it exceeds `MAX_ID`. -/
def getNextId (n : Nat) : Nat × Nat :=
  let nextId := n
  let n1 := n + 1
  (nextId, if n1 > MAX_ID then 0 else n1)

/-- `getNextId` acting on the instance state. -/
def getNextIdSt (st : ClientState) : Nat × ClientState :=
  let (i, n) := getNextId st.nextId
  (i, { st with nextId := n })

/-- Per-call timeout (`getTimeout`): `params.timeout || defaultTimeout`,
where the JS `||` falls back to the default when `timeout` is absent or 0. -/
def getTimeout (defaultTimeout : Int) (params : Params) : Int :=
  match params.timeout with
  | some t => if t = 0 then defaultTimeout else t
  | none => defaultTimeout

/-- `getHost`: the configured host, else the system host, cached. -/
def getHost (st : ClientState) : String × ClientState :=
  match st.host with
  | some h => (h, st)
  | none => (st.systemHost, { st with host := some st.systemHost })

/-- `getBindUri`: URI of the client's inbound pull socket. -/
def getBindUri (st : ClientState) : String × ClientState :=
  let (h, st1) := getHost st
  (mkUri st1.protocol h st1.bindPort, st1)

/-- `getUri`: prefix a bare `host:port` address with the protocol. -/
def getUri (st : ClientState) (address : String) : String :=
  st.protocol.toStr ++ "://" ++ address

/-- `bindInternal`: bind the inbound pull socket and install the response
handler (`handleResponseMessage` below models that handler). -/
def bindInternal (st : ClientState) : ClientState :=
  { st with bindSocketBound := true }

/-- `getPushSocket` backed by `createPushSocket`: reuse the cached outbound
channel for the URI, opening and caching a new one on a miss. -/
def getPushSocket (st : ClientState) (uri : String) : ClientState :=
  if st.socketStorage.contains uri then st
  else { st with socketStorage := st.socketStorage ++ [uri] }

/-- `sendRaw`: draw an id, stamp creation and expiry times, build the
request record, lazily bind the inbound socket when a response is wanted,
and transmit the serialized record on the (cached) outbound channel.  All
of this happens in one uninterrupted turn. -/
def sendRaw (st : ClientState) (now : Int) (address action : String)
    (params : Params) (responseWanted : Bool) :
    ClientState × TRequestMessage × ClientEff :=
  let (id, st1) := getNextIdSt st
  let createdAt := now
  let expiresAt := createdAt + getTimeout st1.defaultTimeout params
  let (localUri, st2) := getBindUri st1
  let message : TRequestMessage :=
    { id := id, createdAt := createdAt, action := action, params := params
      responseWanted := responseWanted, expiresAt := expiresAt
      sourceUri := localUri }
  let st3 := if st2.bindSocketBound = false ∧ responseWanted then bindInternal st2 else st2
  let uri := getUri st3 address
  let st4 := getPushSocket st3 uri
  (st4, message, { sent := [(uri, message)], settles := [] })

/-- `fire`: fire-and-forget send, `responseWanted = false`. -/
def fire (st : ClientState) (now : Int) (address action : String)
    (params : Params) : ClientState × ClientEff :=
  let (st1, _, eff) := sendRaw st now address action params false
  (st1, eff)

/-- `fireMulti`: apply `fire` to each address in order. -/
def fireMulti (st : ClientState) (now : Int) (addresses : List String)
    (action : String) (params : Params) : ClientState × ClientEff :=
  match addresses with
  | [] => (st, { sent := [], settles := [] })
  | a :: rest =>
    let (st1, eff1) := fire st now a action params
    let (st2, eff2) := fireMulti st1 now rest action params
    (st2, { sent := eff1.sent ++ eff2.sent, settles := eff1.settles ++ eff2.settles })

/-- `send`: transmit via `sendRaw` with `responseWanted = true` and register
the pending call under the drawn id.  The registration runs inside the
`Promise` executor, which executes synchronously, so transmission and
registration belong to the same uninterrupted turn. -/
def send (st : ClientState) (now : Int) (address action : String)
    (params : Params) : ClientState × TRequestMessage × ClientEff :=
  let (st1, message, eff) := sendRaw st now address action params true
  let cb : TCallbackInformation :=
    { createdAt := message.createdAt, expiresAt := message.expiresAt
      action := action, sourceUri := message.sourceUri }
  let st2 := { st1 with callbackStorage := mapSet st1.callbackStorage message.id cb }
  (st2, message, eff)

/-- `sendMulti`: fan `send` out to every address (the JS maps `send` over
the addresses synchronously and joins with `Promise.all`); its
`responseWanted` argument is accepted but never read. -/
def sendMulti (st : ClientState) (now : Int) (addresses : List String)
    (action : String) (params : Params) (responseWanted : Bool) :
    ClientState × List TRequestMessage × ClientEff :=
  match addresses with
  | [] => (st, [], { sent := [], settles := [] })
  | a :: rest =>
    let (st1, m, eff1) := send st now a action params
    let (st2, ms, eff2) := sendMulti st1 now rest action params responseWanted
    (st2, m :: ms,
      { sent := eff1.sent ++ eff2.sent, settles := eff1.settles ++ eff2.settles })

/-- The inbound listener's handler installed by `bindInternal`, on the
decode-success path: look the pending call up by the response's id; when
absent, discard the message; when present, delete it from the store and
resolve its continuation with the decoded response object itself. -/
def handleResponseMessage (st : ClientState) (msg : TResponseMessage) :
    ClientState × ClientEff :=
  match mapGet st.callbackStorage msg.id with
  | none => (st, { sent := [], settles := [] })
  | some _ =>
    ({ st with callbackStorage := mapDelete st.callbackStorage msg.id },
     { sent := [], settles := [SettleEvent.resolve msg.id (responseValue msg)] })

/-- `checkTimeouts`: one sweep at the given current time — reject and
delete every pending call whose expiry is at or before `time`, keep the
rest, and re-arm the sweeper. -/
def checkTimeouts (st : ClientState) (time : Int) : ClientState × ClientEff :=
  ({ st with
      callbackStorage := st.callbackStorage.filter
        (fun p => decide (p.2.expiresAt > time))
      sweeperArmed := true },
   { sent := []
     settles := st.callbackStorage.filterMap (fun p =>
       if p.2.expiresAt > time then none
       else some (SettleEvent.reject p.1 ErrKind.timeoutErr)) })

/-- `close`: close the bound inbound socket, cancel the sweeper, close and
clear every cached outbound channel, and reject every pending call with
the closed error.  The source never clears `callbackStorage` here. -/
def close (st : ClientState) : ClientState × ClientEff :=
  ({ st with socketStorage := [], sweeperArmed := false },
   { sent := []
     settles := st.callbackStorage.map (fun p =>
       SettleEvent.reject p.1 ErrKind.closedErr) })

/-- The ids issued by `k` successive `getNextId` draws from counter `c`. -/
def idsFrom (c : Nat) : Nat → List Nat
  | 0 => []
  | k + 1 =>
    let (i, c1) := getNextId c
    i :: idsFrom c1 k

end CommunicationClient

namespace CommunicationServer

/-- The wire-level response record as the server builds it. -/
structure TResponseWire where
  id : Nat
  data : Value
  sourceUri : Option String
deriving Repr, DecidableEq

/-- The mutable state of one `CommunicationServer` instance. -/
structure ServerState where
  port : Int
  protocol : Protocol
  host : Option String
  systemHost : String
  socketStorage : List String
  listening : Bool
deriving Repr, DecidableEq

/-- Server `getHost`: the configured host, else the system host, cached. -/
def getHost (st : ServerState) : String × ServerState :=
  match st.host with
  | some h => (h, st)
  | none => (st.systemHost, { st with host := some st.systemHost })

/-- `getListenUri`: URI of the server's inbound pull socket. -/
def getListenUri (st : ServerState) : String × ServerState :=
  let (h, st1) := getHost st
  (mkUri st1.protocol h st1.port, st1)

/-- Server `getPushSocket` backed by `createPushSocket`: reuse the cached
outbound channel for the URI, opening and caching a new one on a miss. -/
def getPushSocket (st : ServerState) (uri : String) : ServerState :=
  if st.socketStorage.contains uri then st
  else { st with socketStorage := st.socketStorage ++ [uri] }

/-- `sendResponse`: obtain the outbound channel for the URI through the
cache and transmit the serialized response on it. -/
def sendResponse (st : ServerState) (uri : String) (message : TResponseWire) :
    ServerState × List (String × TResponseWire) :=
  let st1 := getPushSocket st uri
  (st1, [(uri, message)])

/-- The listener handler installed by `listenInternal`, on the
decode-success path: invoke the request handler and await its result;
send nothing when `responseWanted` is false, otherwise send exactly one
response — the request's id, the handler's result, the server's own
listening URI — back to the request's declared `sourceUri`. -/
def listenHandleMessage (handler : TRequestMessage → Value) (st : ServerState)
    (msg : TRequestMessage) : ServerState × List (String × TResponseWire) :=
  let result := handler msg
  if msg.responseWanted = false then (st, [])
  else
    let (listenUri, st1) := getListenUri st
    sendResponse st1 msg.sourceUri
      { id := msg.id, data := result, sourceUri := some listenUri }

end CommunicationServer

/-! Concrete fixtures used to evaluate the operations on explicit inputs. -/

/-- Params with no per-call timeout. -/
def pW : Params := { timeout := none, extra := [] }

/-- Params with an explicit per-call timeout of 0. -/
def pT0 : Params := { timeout := some 0, extra := [] }

/-- Params with an explicit per-call timeout of 5. -/
def pT5 : Params := { timeout := some 5, extra := [] }

/-- A freshly constructed client instance state. -/
def stW : ClientState :=
  { bindPort := 2000, protocol := Protocol.tcp, host := some "h"
    checkTimeoutsInterval := 10, defaultTimeout := 250, systemHost := "sys"
    nextId := 0, callbackStorage := [], socketStorage := []
    bindSocketBound := false, sweeperArmed := true }

/-- A pending call awaiting a response under id 1. -/
def cbW : TCallbackInformation :=
  { createdAt := 0, expiresAt := 10, action := "echo", sourceUri := "tcp://h:2000" }

/-- The client state with exactly one pending call, id 1. -/
def stW1 : ClientState := { stW with callbackStorage := [(1, cbW)] }

/-- A decoded response for id 1 carrying payload 7. -/
def respW : TResponseMessage :=
  { id := 1, data := Value.vnum 7, sourceUri := some "tcp://s:9000", size := 42 }

/-- A decoded response for id 0 carrying payload 7. -/
def respW0 : TResponseMessage :=
  { id := 0, data := Value.vnum 7, sourceUri := some "tcp://s:9000", size := 42 }

/-- Client options supplying `defaultTimeout = 0`. -/
def optsT0 : TClientOptions :=
  { bindPort := 2000, protocol := none, host := none
    checkTimeoutsInterval := none, defaultTimeout := some 0 }

/-- Client options supplying `defaultTimeout = 1`. -/
def optsT1 : TClientOptions :=
  { bindPort := 2000, protocol := none, host := none
    checkTimeoutsInterval := none, defaultTimeout := some 1 }

/-- A server instance state listening on port 9000. -/
def stS : CommunicationServer.ServerState :=
  { port := 9000, protocol := Protocol.tcp, host := some "srv", systemHost := "sys"
    socketStorage := [], listening := true }

/-- An echoing handler: return the request's `params.value`. -/
def hEcho : TRequestMessage → Value :=
  fun m => (List.lookup "value" m.params.extra).getD Value.vnull

/-- A decoded request that wants a response. -/
def reqResp : TRequestMessage :=
  { id := 3, createdAt := 0, action := "echo"
    params := { timeout := none, extra := [("value", Value.vnum 7)] }
    responseWanted := true, expiresAt := 250, sourceUri := "tcp://h:2000" }

/-- The same request with `responseWanted` cleared. -/
def reqNoResp : TRequestMessage := { reqResp with responseWanted := false }

/-! Helper lemmas about the JS `Map` model. -/

theorem lookup_mapDelete_self {α : Type} (m : List (Nat × α)) (k : Nat) :
    List.lookup k (mapDelete m k) = none := by
  induction m with
  | nil => rfl
  | cons p m ih =>
    obtain ⟨a, b⟩ := p
    by_cases h : a = k
    · subst h
      simpa [mapDelete, List.filter_cons] using ih
    · have h2 : k ≠ a := fun hh => h hh.symm
      simp only [mapDelete, List.filter_cons] at ih ⊢
      simp [bne_iff_ne, h, List.lookup_cons, beq_false_of_ne h2, ih]

theorem lookup_append_of_none {α : Type} (m l : List (Nat × α)) (k : Nat)
    (h : List.lookup k m = none) : List.lookup k (m ++ l) = List.lookup k l := by
  induction m with
  | nil => rfl
  | cons p m ih =>
    obtain ⟨a, b⟩ := p
    rw [List.lookup_cons] at h
    rw [List.cons_append, List.lookup_cons]
    cases hba : (k == a) with
    | true => rw [hba] at h; simp at h
    | false => rw [hba] at h; exact ih h

theorem lookup_map_replace {α : Type} (m : List (Nat × α)) (k : Nat) (v : α) :
    List.lookup k (m.map (fun p => if p.1 = k then (k, v) else p)) =
      if (List.lookup k m).isSome then some v else none := by
  induction m with
  | nil => rfl
  | cons p m ih =>
    obtain ⟨a, b⟩ := p
    by_cases hk : a = k
    · subst hk
      simp [List.lookup_cons]
    · have h2 : k ≠ a := fun hh => hk hh.symm
      simp only [List.map_cons, hk, if_false, List.lookup_cons, beq_false_of_ne h2]
      exact ih

theorem lookup_mapSet_self {α : Type} (m : List (Nat × α)) (k : Nat) (v : α) :
    List.lookup k (mapSet m k v) = some v := by
  unfold mapSet
  cases h : List.lookup k m with
  | none =>
    simp only [h, Option.isSome_none, Bool.false_eq_true, if_false]
    rw [lookup_append_of_none m _ k h]
    simp [List.lookup]
  | some w =>
    simp only [h, Option.isSome_some, if_true]
    rw [lookup_map_replace]
    simp [h]

/-! Helper lemmas about the client operations. -/

theorem getHost_fst_preserved (st : ClientState) (n : Nat) :
    (CommunicationClient.getHost { st with nextId := n }).1 =
      (CommunicationClient.getHost st).1 := by
  unfold CommunicationClient.getHost
  cases st.host <;> rfl

theorem sendRaw_msg (st : ClientState) (now : Int) (address action : String)
    (params : Params) (want : Bool) :
    (CommunicationClient.sendRaw st now address action params want).2.1 =
      { id := st.nextId, createdAt := now, action := action, params := params
        responseWanted := want
        expiresAt := now + CommunicationClient.getTimeout st.defaultTimeout params
        sourceUri := (CommunicationClient.getBindUri st).1 } := by
  unfold CommunicationClient.sendRaw CommunicationClient.getNextIdSt
    CommunicationClient.getNextId CommunicationClient.getBindUri
    CommunicationClient.getHost
  cases st.host <;> rfl

theorem sendRaw_settles (st : ClientState) (now : Int) (address action : String)
    (params : Params) (want : Bool) :
    (CommunicationClient.sendRaw st now address action params want).2.2.settles = [] := rfl

theorem getPushSocket_callbackStorage (st : ClientState) (uri : String) :
    (CommunicationClient.getPushSocket st uri).callbackStorage =
      st.callbackStorage := by
  unfold CommunicationClient.getPushSocket
  split <;> rfl

theorem sendRaw_callbackStorage (st : ClientState) (now : Int)
    (address action : String) (params : Params) (want : Bool) :
    (CommunicationClient.sendRaw st now address action params want).1.callbackStorage =
      st.callbackStorage := by
  cases hh : st.host <;>
    simp only [CommunicationClient.sendRaw, CommunicationClient.getNextIdSt,
      CommunicationClient.getNextId, CommunicationClient.getBindUri,
      CommunicationClient.getHost, hh, getPushSocket_callbackStorage] <;>
    split <;> rfl

theorem sendRaw_sent (st : ClientState) (now : Int) (address action : String)
    (params : Params) (want : Bool) :
    (CommunicationClient.sendRaw st now address action params want).2.2.sent =
      [(CommunicationClient.getUri st address,
        (CommunicationClient.sendRaw st now address action params want).2.1)] := by
  cases hh : st.host <;>
    simp only [CommunicationClient.sendRaw, CommunicationClient.getNextIdSt,
      CommunicationClient.getNextId, CommunicationClient.getBindUri,
      CommunicationClient.getHost, CommunicationClient.getUri,
      CommunicationClient.bindInternal, hh] <;>
    split <;> rfl

theorem send_eq (st : ClientState) (now : Int) (address action : String)
    (params : Params) :
    CommunicationClient.send st now address action params =
      (let r := CommunicationClient.sendRaw st now address action params true
       let cb : TCallbackInformation :=
         { createdAt := r.2.1.createdAt, expiresAt := r.2.1.expiresAt
           action := action, sourceUri := r.2.1.sourceUri }
       ({ r.1 with callbackStorage := mapSet r.1.callbackStorage r.2.1.id cb },
        r.2.1, r.2.2)) := rfl

/-- C1: on the client's inbound listener, a decoded response whose id has no
pending call is discarded silently with the state unchanged; a decoded
response whose id has a pending call removes it from the store and settles
it exactly once — but the continuation is resolved with the decoded
response object itself (payload in its `data` field, `size` added), not
with the bare payload; once removed, the id is no longer matchable. -/
theorem c1_response_dispatch (st : ClientState) (msg : TResponseMessage) :
    (mapGet st.callbackStorage msg.id = none →
      CommunicationClient.handleResponseMessage st msg =
        (st, { sent := [], settles := [] })) ∧
    (∀ cb, mapGet st.callbackStorage msg.id = some cb →
      (CommunicationClient.handleResponseMessage st msg).1.callbackStorage =
        mapDelete st.callbackStorage msg.id ∧
      (CommunicationClient.handleResponseMessage st msg).2.settles =
        [SettleEvent.resolve msg.id (responseValue msg)] ∧
      mapGet (CommunicationClient.handleResponseMessage st msg).1.callbackStorage
        msg.id = none) := by
  constructor
  · intro h
    simp [CommunicationClient.handleResponseMessage, h]
  · intro cb h
    have h2 : List.lookup msg.id st.callbackStorage = some cb := h
    refine ⟨?_, ?_, ?_⟩
    · simp [CommunicationClient.handleResponseMessage, mapGet, h2]
    · simp [CommunicationClient.handleResponseMessage, mapGet, h2]
    · simp only [CommunicationClient.handleResponseMessage, mapGet, h2]
      exact lookup_mapDelete_self _ _

/-- C1 counterexample: with a pending call under id 1 and an inbound echo
response carrying payload 7, the future is not resolved with the bare
payload 7 as the claim states (it is resolved with the response object). -/
theorem c1_counterexample :
    (CommunicationClient.handleResponseMessage stW1 respW).2.settles ≠
      [SettleEvent.resolve 1 (Value.vnum 7)] := by decide

/-- C1 witness: both branches of `c1_response_dispatch` at concrete inputs. -/
theorem c1_witness :
    (mapGet stW.callbackStorage respW.id = none ∧
      CommunicationClient.handleResponseMessage stW respW =
        (stW, { sent := [], settles := [] })) ∧
    (mapGet stW1.callbackStorage respW.id = some cbW ∧
      (CommunicationClient.handleResponseMessage stW1 respW).2.settles =
        [SettleEvent.resolve respW.id (responseValue respW)]) :=
  ⟨⟨by decide, (c1_response_dispatch stW respW).1 (by decide)⟩,
   ⟨by decide, ((c1_response_dispatch stW1 respW).2 cbW (by decide)).2.1⟩⟩

/-- C2: after `close()` every pending call still in the store is rejected
with the closed error, the outbound channel cache is cleared and the
sweeper cancelled — but the pending call store is not emptied: it retains
exactly the entries it held. -/
theorem c2_close_semantics (st : ClientState) :
    (CommunicationClient.close st).2.settles =
      st.callbackStorage.map (fun p => SettleEvent.reject p.1 ErrKind.closedErr) ∧
    (CommunicationClient.close st).1.callbackStorage = st.callbackStorage ∧
    (CommunicationClient.close st).1.socketStorage = [] ∧
    (CommunicationClient.close st).1.sweeperArmed = false :=
  ⟨rfl, rfl, rfl, rfl⟩

/-- C2 counterexample: closing a client with one pending call leaves the
pending call store non-empty, contradicting the claim that it is left
empty. -/
theorem c2_counterexample :
    (CommunicationClient.close stW1).1.callbackStorage ≠ [] := by decide

/-- C3: one sweep at the current time rejects with a timeout error and
removes exactly the pending calls whose expiry is at or before that time;
every pending call whose expiry is strictly in the future stays in the
store untouched, so no call is ever timed out before its expiry passes. -/
theorem c3_timeout_sweep (st : ClientState) (time : Int) (id : Nat)
    (cb : TCallbackInformation) :
    ((id, cb) ∈ (CommunicationClient.checkTimeouts st time).1.callbackStorage ↔
      (id, cb) ∈ st.callbackStorage ∧ time < cb.expiresAt) ∧
    (SettleEvent.reject id ErrKind.timeoutErr ∈
        (CommunicationClient.checkTimeouts st time).2.settles ↔
      ∃ cb2, (id, cb2) ∈ st.callbackStorage ∧ cb2.expiresAt ≤ time) := by
  constructor
  · simp [CommunicationClient.checkTimeouts, List.mem_filter]
  · simp only [CommunicationClient.checkTimeouts, List.mem_filterMap]
    constructor
    · rintro ⟨⟨i2, c2⟩, hmem, hif⟩
      by_cases hle : c2.expiresAt ≤ time
      · rw [if_neg (not_lt.mpr hle)] at hif
        have : i2 = id := by
          have := Option.some.inj hif
          cases this
          rfl
        subst this
        exact ⟨c2, hmem, hle⟩
      · rw [if_pos (not_le.mp hle)] at hif
        cases hif
    · rintro ⟨c2, hmem, hle⟩
      exact ⟨(id, c2), hmem, by rw [if_neg (not_lt.mpr hle)]⟩

theorem idsFrom_eq_range' (k : Nat) :
    ∀ c : Nat, c + k ≤ MAX_ID + 1 →
      CommunicationClient.idsFrom c k = List.range' c k := by
  induction k with
  | zero => intro c _; rfl
  | succ k ih =>
    intro c hc
    cases k with
    | zero =>
      simp [CommunicationClient.idsFrom, CommunicationClient.getNextId, List.range']
    | succ j =>
      have hlt : ¬ (c + 1 > MAX_ID) := by
        simp only [MAX_ID] at hc ⊢
        omega
      show c :: CommunicationClient.idsFrom (if c + 1 > MAX_ID then 0 else c + 1) (j + 1) =
        c :: List.range' (c + 1) (j + 1)
      rw [if_neg hlt, ih (c + 1) (by omega)]

/-- C4: the id counter starts at 0 on construction, each draw issues the
current counter and advances it by exactly 1, the counter wraps to 0
exactly when the id that would be issued next exceeds the ceiling
`MAX_ID = 10,000,000`, and `N` successive draws from a fresh instance
issue the pairwise distinct ids `0, …, N−1` for every `N ≤ MAX_ID`. -/
theorem c4_id_counter :
    (∀ o h, Option.all (fun st => st.nextId == 0) (constructClient o h).toOption = true) ∧
    (∀ n : Nat, n < MAX_ID → CommunicationClient.getNextId n = (n, n + 1)) ∧
    CommunicationClient.getNextId MAX_ID = (MAX_ID, 0) ∧
    (∀ N : Nat, N ≤ MAX_ID →
      CommunicationClient.idsFrom 0 N = List.range N ∧
      (CommunicationClient.idsFrom 0 N).Nodup) := by
  refine ⟨?_, ?_, ?_, ?_⟩
  · intro o h
    simp only [constructClient]
    repeat' split
    all_goals rfl
  · intro n hn
    have hlt : ¬ (n + 1 > MAX_ID) := by
      simp only [MAX_ID] at hn ⊢
      omega
    simp [CommunicationClient.getNextId, hlt]
  · simp [CommunicationClient.getNextId]
  · intro N hN
    have heq := idsFrom_eq_range' N 0 (by omega)
    rw [heq, ← List.range_eq_range']
    exact ⟨rfl, List.nodup_range _⟩

/-- C4 witness: concrete draws — `getNextId` at 3 and three draws from a
fresh counter. -/
theorem c4_witness :
    (3 < MAX_ID ∧ CommunicationClient.getNextId 3 = (3, 4)) ∧
    (3 ≤ MAX_ID ∧ CommunicationClient.idsFrom 0 3 = List.range 3) :=
  ⟨⟨by decide, c4_id_counter.2.1 3 (by decide)⟩,
   ⟨by decide, (c4_id_counter.2.2.2 3 (by decide)).1⟩⟩

/-- C5: `send` transmits the request and registers the pending call under
the request's id within one and the same uninterrupted turn (the source
registers inside the synchronously-run promise executor right after
`sendRaw` transmits, before yielding control): in the state `send` leaves
behind, the pending call is present with the transmitted record's times,
so any response processed afterwards finds the call tracked and resolves
it. -/
theorem c5_registration_atomic (st : ClientState) (now : Int)
    (address action : String) (params : Params) :
    (CommunicationClient.send st now address action params).2.2.sent =
      [(CommunicationClient.getUri st address,
        (CommunicationClient.send st now address action params).2.1)] ∧
    mapGet (CommunicationClient.send st now address action params).1.callbackStorage
        (CommunicationClient.send st now address action params).2.1.id =
      some { createdAt := now
             expiresAt := now + CommunicationClient.getTimeout st.defaultTimeout params
             action := action
             sourceUri :=
               (CommunicationClient.send st now address action params).2.1.sourceUri } ∧
    ∀ resp : TResponseMessage,
      resp.id = (CommunicationClient.send st now address action params).2.1.id →
      (CommunicationClient.handleResponseMessage
          (CommunicationClient.send st now address action params).1 resp).2.settles =
        [SettleEvent.resolve resp.id (responseValue resp)] := by
  have hmsg : (CommunicationClient.send st now address action params).2.1 =
      (CommunicationClient.sendRaw st now address action params true).2.1 := rfl
  have hsent : (CommunicationClient.send st now address action params).2.2 =
      (CommunicationClient.sendRaw st now address action params true).2.2 := rfl
  have hcb : (CommunicationClient.send st now address action params).1.callbackStorage =
      mapSet (CommunicationClient.sendRaw st now address action params true).1.callbackStorage
        (CommunicationClient.sendRaw st now address action params true).2.1.id
        { createdAt := (CommunicationClient.sendRaw st now address action params true).2.1.createdAt
          expiresAt := (CommunicationClient.sendRaw st now address action params true).2.1.expiresAt
          action := action
          sourceUri :=
            (CommunicationClient.sendRaw st now address action params true).2.1.sourceUri } := rfl
  refine ⟨?_, ?_, ?_⟩
  · rw [hsent, hmsg]
    exact sendRaw_sent st now address action params true
  · simp only [hcb, hmsg, mapGet, lookup_mapSet_self, sendRaw_msg]
  · intro resp hid
    simp only [hmsg, sendRaw_msg] at hid
    simp only [CommunicationClient.handleResponseMessage, mapGet, hcb, hid,
      sendRaw_msg, lookup_mapSet_self]

/-- C6 counterexample: with a caller-supplied `params.timeout` of 0 the
request's expiry is not `createdAt + 0` as the claim states — the JS `||`
treats 0 as unset and the instance default (250) is used instead. -/
theorem c6_counterexample :
    (CommunicationClient.sendRaw stW 100 "a:1" "act" pT0 true).2.1.expiresAt ≠
      100 + 0 := by decide

/-- C6 (amended): every request built by `sendRaw` (used by `fire` and
`send` alike) stamps `createdAt = now` and `expiresAt = createdAt + t`,
where `t` is the caller-supplied `params.timeout` when present and
nonzero, and the instance's `defaultTimeout` when `params.timeout` is
absent or 0. -/
theorem c6_expiry (st : ClientState) (now : Int) (address action : String)
    (params : Params) (want : Bool) :
    (CommunicationClient.sendRaw st now address action params want).2.1.createdAt = now ∧
    (∀ t : Int, params.timeout = some t → t ≠ 0 →
      (CommunicationClient.sendRaw st now address action params want).2.1.expiresAt =
        now + t) ∧
    ((params.timeout = none ∨ params.timeout = some 0) →
      (CommunicationClient.sendRaw st now address action params want).2.1.expiresAt =
        now + st.defaultTimeout) := by
  refine ⟨?_, ?_, ?_⟩
  · simp [sendRaw_msg]
  · intro t ht ht0
    simp [sendRaw_msg, CommunicationClient.getTimeout, ht, ht0]
  · rintro (h | h) <;> simp [sendRaw_msg, CommunicationClient.getTimeout, h]

/-- C6 witness: both branches of `c6_expiry` at concrete inputs — a
supplied nonzero timeout of 5 and a supplied timeout of 0. -/
theorem c6_witness :
    ((CommunicationClient.sendRaw stW 100 "a:1" "act" pT5 true).2.1.expiresAt =
      100 + 5) ∧
    ((CommunicationClient.sendRaw stW 100 "a:1" "act" pT0 true).2.1.expiresAt =
      100 + stW.defaultTimeout) :=
  ⟨(c6_expiry stW 100 "a:1" "act" pT5 true).2.1 5 rfl (by decide),
   (c6_expiry stW 100 "a:1" "act" pT0 true).2.2 (Or.inr rfl)⟩

/-- C7 counterexample: supplying `defaultTimeout = 0` (with otherwise valid
options) does not fail construction as the claim states — the `||`
defaulting replaces 0 with 250 before validation runs, so construction
succeeds. -/
theorem c7_counterexample :
    (constructClient optsT0 "sys").toOption.isSome = true := by decide

/-- C7 (amended): construction fails for every supplied nonzero
`defaultTimeout` below 2 (negatives included); a supplied `defaultTimeout`
of 0, however, is replaced by the default 250 before validation, so
construction then behaves exactly as if no `defaultTimeout` had been
supplied, succeeding when the remaining options are valid. -/
theorem c7_timeout_validation :
    (∀ (o : TClientOptions) (h : String) (t : Int), o.defaultTimeout = some t →
      t ≠ 0 → t < 2 → ∃ e, constructClient o h = Except.error e) ∧
    (∀ (o : TClientOptions) (h : String), o.defaultTimeout = some 0 →
      constructClient o h = constructClient { o with defaultTimeout := none } h) := by
  constructor
  · intro o h t ht ht0 hlt
    have hd : orDefaultInt o.defaultTimeout DEFAULT_TIMEOUT = t := by
      simp [orDefaultInt, ht, ht0]
    simp only [constructClient, hd]
    split_ifs with h1 h2 <;> exact ⟨_, rfl⟩
  · intro o h h0
    simp [constructClient, orDefaultInt, h0]

/-- C7 witness: both branches of `c7_timeout_validation` at concrete
inputs — `defaultTimeout = 1` fails, `defaultTimeout = 0` acts as unset. -/
theorem c7_witness :
    (∃ e, constructClient optsT1 "sys" = Except.error e) ∧
    constructClient optsT0 "sys" =
      constructClient { optsT0 with defaultTimeout := none } "sys" :=
  ⟨c7_timeout_validation.1 optsT1 "sys" 1 rfl (by decide) (by decide),
   c7_timeout_validation.2 optsT0 "sys" rfl⟩

theorem getPushSocketS_mem (st : CommunicationServer.ServerState) (uri : String) :
    uri ∈ (CommunicationServer.getPushSocket st uri).socketStorage := by
  unfold CommunicationServer.getPushSocket
  split
  · next hc => exact List.mem_of_elem_eq_true hc
  · simp

/-- C8: for every decoded request on the server's listener, no reply is
sent when `responseWanted` is false, whatever the handler returns; when
`responseWanted` is true, exactly one response is sent to the request's
declared origin URI through the outbound channel cache, carrying the
request's id, the handler's awaited result as `data`, and the server's
own listening URI as `sourceUri`. -/
theorem c8_server_dispatch (handler : TRequestMessage → Value)
    (st : CommunicationServer.ServerState) (msg : TRequestMessage) :
    (msg.responseWanted = false →
      CommunicationServer.listenHandleMessage handler st msg = (st, [])) ∧
    (msg.responseWanted = true →
      (CommunicationServer.listenHandleMessage handler st msg).2 =
        [(msg.sourceUri,
          { id := msg.id, data := handler msg
            sourceUri := some (CommunicationServer.getListenUri st).1 })] ∧
      msg.sourceUri ∈
        (CommunicationServer.listenHandleMessage handler st msg).1.socketStorage) := by
  constructor
  · intro h
    simp [CommunicationServer.listenHandleMessage, h]
  · intro h
    constructor
    · simp [CommunicationServer.listenHandleMessage, CommunicationServer.sendResponse, h]
    · simp only [CommunicationServer.listenHandleMessage,
        CommunicationServer.sendResponse, h]
      simp only [Bool.true_eq_false, if_false]
      exact getPushSocketS_mem _ _

/-- C8 witness: both branches at a concrete echoing handler — a request
with `responseWanted = false` draws no reply, one with
`responseWanted = true` draws exactly the echoed response. -/
theorem c8_witness :
    CommunicationServer.listenHandleMessage hEcho stS reqNoResp = (stS, []) ∧
    (CommunicationServer.listenHandleMessage hEcho stS reqResp).2 =
      [(reqResp.sourceUri,
        { id := reqResp.id, data := hEcho reqResp
          sourceUri := some (CommunicationServer.getListenUri stS).1 })] :=
  ⟨(c8_server_dispatch hEcho stS reqNoResp).1 rfl,
   ((c8_server_dispatch hEcho stS reqResp).2 rfl).1⟩

theorem fire_frame (st : ClientState) (now : Int) (address action : String)
    (params : Params) :
    (CommunicationClient.fire st now address action params).1.callbackStorage =
      st.callbackStorage ∧
    (CommunicationClient.fire st now address action params).2.settles = [] :=
  ⟨sendRaw_callbackStorage st now address action params false, rfl⟩

theorem fireMulti_frame (now : Int) (action : String) (params : Params) :
    ∀ (addresses : List String) (st : ClientState),
      (CommunicationClient.fireMulti st now addresses action params).1.callbackStorage =
        st.callbackStorage ∧
      (CommunicationClient.fireMulti st now addresses action params).2.settles = [] := by
  intro addresses
  induction addresses with
  | nil => intro st; exact ⟨rfl, rfl⟩
  | cons a rest ih =>
    intro st
    constructor
    · show (CommunicationClient.fireMulti
          (CommunicationClient.fire st now a action params).1 now rest action
          params).1.callbackStorage = st.callbackStorage
      rw [(ih _).1]
      exact (fire_frame st now a action params).1
    · show (CommunicationClient.fire st now a action params).2.settles ++
          (CommunicationClient.fireMulti
            (CommunicationClient.fire st now a action params).1 now rest action
            params).2.settles = []
      rw [(ih _).2, (fire_frame st now a action params).2]
      rfl

/-- C9: `fire` — and each constituent `fire` of `fireMulti` — leaves the
pending call store exactly as it was, never creating a pending call, and
settles no future at all; it completes within its own turn with no
completion signal to the caller. -/
theorem c9_fire_frame (st : ClientState) (now : Int) (address action : String)
    (params : Params) (addresses : List String) :
    (CommunicationClient.fire st now address action params).1.callbackStorage =
      st.callbackStorage ∧
    (CommunicationClient.fire st now address action params).2.settles = [] ∧
    (CommunicationClient.fireMulti st now addresses action params).1.callbackStorage =
      st.callbackStorage ∧
    (CommunicationClient.fireMulti st now addresses action params).2.settles = [] :=
  ⟨(fire_frame st now address action params).1,
   (fire_frame st now address action params).2,
   (fireMulti_frame now action params addresses st).1,
   (fireMulti_frame now action params addresses st).2⟩

theorem send_responseWanted (st : ClientState) (now : Int) (address action : String)
    (params : Params) :
    (CommunicationClient.send st now address action params).2.1.responseWanted = true := by
  show (CommunicationClient.sendRaw st now address action params true).2.1.responseWanted = true
  rw [sendRaw_msg]

theorem sendMulti_ignores (now : Int) (action : String) (params : Params) :
    ∀ (addresses : List String) (st : ClientState) (rw1 rw2 : Bool),
      CommunicationClient.sendMulti st now addresses action params rw1 =
        CommunicationClient.sendMulti st now addresses action params rw2 := by
  intro addresses
  induction addresses with
  | nil => intro st rw1 rw2; rfl
  | cons a rest ih =>
    intro st rw1 rw2
    simp only [CommunicationClient.sendMulti]
    rw [ih _ rw1 rw2]

theorem sendMulti_all_responseWanted (now : Int) (action : String) (params : Params) :
    ∀ (addresses : List String) (st : ClientState) (want : Bool),
      ((CommunicationClient.sendMulti st now addresses action params want).2.1.all
        (fun m => m.responseWanted)) = true := by
  intro addresses
  induction addresses with
  | nil => intro st want; rfl
  | cons a rest ih =>
    intro st want
    show ((CommunicationClient.send st now a action params).2.1 ::
        (CommunicationClient.sendMulti (CommunicationClient.send st now a action params).1
          now rest action params want).2.1).all (fun m => m.responseWanted) = true
    rw [List.all_cons, send_responseWanted, ih]
    rfl

/-- C10: the `responseWanted` argument of `sendMulti` has no influence —
two runs differing only in it produce identical states, requests and
effects — and every constituent `send` marks its request with
`responseWanted = true` regardless. -/
theorem c10_sendMulti_ignores_responseWanted (st : ClientState) (now : Int)
    (addresses : List String) (action : String) (params : Params) (rw1 rw2 : Bool) :
    CommunicationClient.sendMulti st now addresses action params rw1 =
      CommunicationClient.sendMulti st now addresses action params rw2 ∧
    ((CommunicationClient.sendMulti st now addresses action params rw1).2.1.all
      (fun m => m.responseWanted)) = true :=
  ⟨sendMulti_ignores now action params addresses st rw1 rw2,
   sendMulti_all_responseWanted now action params addresses st rw1⟩

/-- C5 witness: `c5_registration_atomic` at a concrete send (drawn id 0)
followed by a matching concrete response, which is found and resolved. -/
theorem c5_witness :
    (CommunicationClient.handleResponseMessage
        (CommunicationClient.send stW 5 "a:1" "act" pW).1 respW0).2.settles =
      [SettleEvent.resolve respW0.id (responseValue respW0)] :=
  (c5_registration_atomic stW 5 "a:1" "act" pW).2.2 respW0 (by decide)
